import Mathlib

/-!
Verification of the MeanEdge intraday backtesting engine.

This file gives a shallow embedding, in Lean 4, of the core simulation
pipeline of `src/trading_engine.hpp`: the incremental EMA calculator, the
two-candle gap-up/breakdown pattern state machine, the capital-based risk
manager, the single-position ledger, and the per-candle orchestrator loop
(`TradingEngine::run`).  C++ `double` values are embedded as exact
rationals (`ℚ`); `int` share counts as `ℤ`, with the C++
`static_cast<int>` of a quotient written out explicitly as truncation
toward zero.  The `"HH:MM"` timestamp strings are embedded as their two
numeric components, and `parseTimeToMinutes` mirrors
`stoi(substr(0,2))*60 + stoi(substr(3,2))`.  Console logging performed by
the C++ code is pure output and is omitted; the exit-reason strings passed
to `closePosition` only feed that logging, so they are dropped as well.
The theorems at the end of the file settle the behavioural claims about
the engine.
-/

namespace MeanEdge

/-- Embedding of an `"HH:MM"` wall-clock timestamp string by its two
numeric components. -/
structure TimeHM where
  hh : ℕ
  mm : ℕ
deriving DecidableEq

/-- OHLC candle (`struct Candle`).  The C++ field `open` is a reserved
word in Lean, so it is rendered `open_`. -/
structure Candle where
  timestamp : TimeHM
  open_ : ℚ
  high : ℚ
  low : ℚ
  close : ℚ
deriving DecidableEq

/-- `Trade::Side`. -/
inductive TradeSide where
  | BUY
  | SELL
deriving DecidableEq

/-- `Trade::Type`. -/
inductive TradeType where
  | ENTRY
  | EXIT
deriving DecidableEq

/-- Trade execution record (`struct Trade`).  `pnl` defaults to `0` at
construction for entries, matching the C++ default argument. -/
structure Trade where
  timestamp : TimeHM
  side : TradeSide
  type : TradeType
  price : ℚ
  quantity : ℤ
  pnl : ℚ
deriving DecidableEq

/-- Active position state (`struct Position`). -/
structure Position where
  is_open : Bool
  side : TradeSide
  entry_price : ℚ
  quantity : ℤ
  entry_timestamp : TimeHM
deriving DecidableEq

/-- The `Position()` default constructor: closed, side BUY, zero fields.
The empty timestamp string is rendered `⟨0, 0⟩`. -/
def Position.init : Position :=
  ⟨false, TradeSide.BUY, 0, 0, ⟨0, 0⟩⟩

/-- `Position::open`. -/
def Position.openAt (p : Position) (s : TradeSide) (price : ℚ) (qty : ℤ)
    (ts : TimeHM) : Position :=
  { p with is_open := true, side := s, entry_price := price, quantity := qty,
           entry_timestamp := ts }

/-- `Position::close`: resets all position fields (the cleared timestamp
string is rendered `⟨0, 0⟩`). -/
def Position.close (p : Position) : Position :=
  { p with is_open := false, entry_price := 0, quantity := 0,
           entry_timestamp := ⟨0, 0⟩ }

/-- `Position::getUnrealizedPnL`. -/
def Position.getUnrealizedPnL (p : Position) (current_price : ℚ) : ℚ :=
  if p.is_open = false then 0
  else if p.side = TradeSide.BUY then
    (current_price - p.entry_price) * (p.quantity : ℚ)
  else
    (p.entry_price - current_price) * (p.quantity : ℚ)

/-- Market data container (`struct MarketData`). -/
structure MarketData where
  instrument : String
  previous_day_close : ℚ
  capital : ℚ
  candles : List Candle
deriving DecidableEq

/-- Incremental EMA calculator (`class EMACalculator`).  The C++ members
`ema_` and `initialized_` are rendered `ema` and `ready` (the accessor
`isInitialized` is the spec's `isReady`). -/
structure EMACalculator where
  period : ℕ
  multiplier : ℚ
  ema : ℚ
  ready : Bool
deriving DecidableEq

/-- The `EMACalculator(int period)` constructor: pre-computes
`α = 2/(period+1)`. -/
def EMACalculator.init (period : ℕ) : EMACalculator :=
  ⟨period, 2 / ((period : ℚ) + 1), 0, false⟩

/-- `EMACalculator::update`: the first price seeds the EMA; later prices
use exponential smoothing. -/
def EMACalculator.update (e : EMACalculator) (price : ℚ) : EMACalculator :=
  if e.ready = false then { e with ema := price, ready := true }
  else { e with ema := price * e.multiplier + e.ema * (1 - e.multiplier) }

/-- `EMACalculator::reset`. -/
def EMACalculator.reset (e : EMACalculator) : EMACalculator :=
  { e with ema := 0, ready := false }

/-- `TwoCandelPatternStrategy::GAP_THRESHOLD` (3% gap requirement). -/
def GAP_THRESHOLD : ℚ := 3 / 100

/-- Pattern detector (`class TwoCandelPatternStrategy`). -/
structure TwoCandelPatternStrategy where
  first_candle : Candle
  first_candle_valid : Bool
  previous_day_close : ℚ
  ema3 : EMACalculator
  ema5 : EMACalculator
deriving DecidableEq

/-- The `TwoCandelPatternStrategy()` default constructor. -/
def TwoCandelPatternStrategy.init : TwoCandelPatternStrategy :=
  ⟨⟨⟨0, 0⟩, 0, 0, 0, 0⟩, false, 0, EMACalculator.init 3, EMACalculator.init 5⟩

/-- The method `TwoCandelPatternStrategy::initialize` (renamed `setup`
here): records the previous-day close and resets the state machine and
both EMAs. -/
def TwoCandelPatternStrategy.setup (s : TwoCandelPatternStrategy)
    (prev_close : ℚ) : TwoCandelPatternStrategy :=
  { s with previous_day_close := prev_close, first_candle_valid := false,
           ema3 := s.ema3.reset, ema5 := s.ema5.reset }

/-- `TwoCandelPatternStrategy::processCandle`: updates both EMAs, then
runs the SEEKING/ARMED state machine; returns the new state and the
signal.  In the C++ source the SEEKING branch always returns, so the
trailing `if (first_candle_valid_)` breakdown check is its `else`. -/
def TwoCandelPatternStrategy.processCandle (s : TwoCandelPatternStrategy)
    (candle : Candle) : TwoCandelPatternStrategy × Bool :=
  let s1 := { s with ema3 := s.ema3.update candle.close,
                     ema5 := s.ema5.update candle.close }
  if s1.ema5.ready = false then (s1, false)
  else if s1.first_candle_valid = false then
    if candle.open_ ≥ s1.previous_day_close * (1 + GAP_THRESHOLD) ∧
        candle.low > s1.ema5.ema then
      ({ s1 with first_candle := candle, first_candle_valid := true }, false)
    else (s1, false)
  else if candle.low < s1.first_candle.low then
    ({ s1 with first_candle_valid := false }, true)
  else (s1, false)

/-- `RiskManager::STOP_LOSS_PCT`. -/
def STOP_LOSS_PCT : ℚ := 2 / 100

/-- `RiskManager::TAKE_PROFIT_PCT`. -/
def TAKE_PROFIT_PCT : ℚ := 7 / 100

/-- `RiskManager::MAX_DAILY_TRADES`. -/
def MAX_DAILY_TRADES : ℕ := 2

/-- Risk management engine (`class RiskManager`). -/
structure RiskManager where
  initial_capital : ℚ
  current_capital : ℚ
  trades_today : ℕ
  stop_loss_amount : ℚ
  take_profit_amount : ℚ
deriving DecidableEq

/-- The `RiskManager(double capital)` constructor: fixes both thresholds
from the initial capital. -/
def RiskManager.init (capital : ℚ) : RiskManager :=
  ⟨capital, capital, 0, capital * STOP_LOSS_PCT, capital * TAKE_PROFIT_PCT⟩

/-- The C++ `static_cast<int>` applied to a rational quotient: truncation
toward zero. -/
def truncQ (q : ℚ) : ℤ :=
  if q < 0 then -⌊-q⌋ else ⌊q⌋

/-- `RiskManager::calculatePositionSize`. -/
def RiskManager.calculatePositionSize (r : RiskManager) (entry_price : ℚ) :
    ℤ :=
  if entry_price ≤ 0 then 0 else truncQ (r.current_capital / entry_price)

/-- `RiskManager::canTrade`. -/
def RiskManager.canTrade (r : RiskManager) : Bool :=
  decide (r.trades_today < MAX_DAILY_TRADES)

/-- `RiskManager::recordTrade`. -/
def RiskManager.recordTrade (r : RiskManager) : RiskManager :=
  { r with trades_today := r.trades_today + 1 }

/-- `RiskManager::isStopLossHit`. -/
def RiskManager.isStopLossHit (r : RiskManager) (unrealized_pnl : ℚ) :
    Bool :=
  decide (unrealized_pnl ≤ -r.stop_loss_amount)

/-- `RiskManager::isTakeProfitHit`. -/
def RiskManager.isTakeProfitHit (r : RiskManager) (unrealized_pnl : ℚ) :
    Bool :=
  decide (unrealized_pnl ≥ r.take_profit_amount)

/-- `RiskManager::updateCapital`. -/
def RiskManager.updateCapital (r : RiskManager) (pnl : ℚ) : RiskManager :=
  { r with current_capital := r.current_capital + pnl }

/-- `TradingEngine::MARKET_CLOSE_TIME` ("15:00"). -/
def MARKET_CLOSE_TIME : TimeHM := ⟨15, 0⟩

/-- `TradingEngine::parseTimeToMinutes`: minutes since midnight of an
`"HH:MM"` timestamp. -/
def parseTimeToMinutes (t : TimeHM) : ℕ :=
  t.hh * 60 + t.mm

/-- `TradingEngine::isPastMarketClose`. -/
def isPastMarketClose (t : TimeHM) : Bool :=
  decide (parseTimeToMinutes MARKET_CLOSE_TIME ≤ parseTimeToMinutes t)

/-- Mutable state of `class TradingEngine` that the simulation loop
touches (the read-only `market_data_` is passed separately; the unused
`current_candle_index_` is dropped). -/
structure EngineState where
  strategy : TwoCandelPatternStrategy
  risk : RiskManager
  position : Position
  trade_log : List Trade
  session_active : Bool
deriving DecidableEq

/-- `TradingEngine::executeSellOrder`: guarded by the daily cap, the
single-position rule and a positive size; on success opens a SELL position
at the candle's close and appends an ENTRY trade. -/
def executeSellOrder (st : EngineState) (candle : Candle) : EngineState :=
  if st.risk.canTrade = false then st
  else if st.position.is_open = true then st
  else
    let entry_price := candle.close
    let quantity := st.risk.calculatePositionSize entry_price
    if quantity ≤ 0 then st
    else
      { st with
        position := st.position.openAt TradeSide.SELL entry_price quantity
          candle.timestamp,
        risk := st.risk.recordTrade,
        trade_log := st.trade_log ++
          [⟨candle.timestamp, TradeSide.SELL, TradeType.ENTRY, entry_price,
            quantity, 0⟩] }

/-- `TradingEngine::closePosition`: exits at the candle's close, books the
realized PnL into capital, appends an EXIT trade and clears the
position. -/
def closePosition (st : EngineState) (candle : Candle) : EngineState :=
  if st.position.is_open = false then st
  else
    let exit_price := candle.close
    let pnl := st.position.getUnrealizedPnL exit_price
    { st with
      risk := st.risk.updateCapital pnl,
      trade_log := st.trade_log ++
        [⟨candle.timestamp, st.position.side, TradeType.EXIT, exit_price,
          st.position.quantity, pnl⟩],
      position := st.position.close }

/-- `TradingEngine::checkExitConditions`: with an open position, tries the
stop loss, then the take profit, then the 15:00 cutoff; only the time
branch additionally ends the session. -/
def checkExitConditions (st : EngineState) (candle : Candle) : EngineState :=
  if st.position.is_open = false then st
  else
    let unrealized_pnl := st.position.getUnrealizedPnL candle.close
    if st.risk.isStopLossHit unrealized_pnl = true then
      closePosition st candle
    else if st.risk.isTakeProfitHit unrealized_pnl = true then
      closePosition st candle
    else if isPastMarketClose candle.timestamp = true then
      { closePosition st candle with session_active := false }
    else st

/-- One iteration of the candle loop in `TradingEngine::run`: feed the
candle to the strategy, check exits, then act on the entry signal only if
the session is still active. -/
def stepCandle (st : EngineState) (candle : Candle) : EngineState :=
  let pr := st.strategy.processCandle candle
  let st1 := { st with strategy := pr.1 }
  let st2 := checkExitConditions st1 candle
  if pr.2 = true ∧ st2.session_active = true then executeSellOrder st2 candle
  else st2

/-- The candle loop of `TradingEngine::run`: iterates `stepCandle`,
breaking as soon as the session is no longer active. -/
def runCandles (st : EngineState) : List Candle → EngineState
  | [] => st
  | c :: cs => if st.session_active = false then st
               else runCandles (stepCandle st c) cs

/-- Engine state at the top of `TradingEngine::run`, after the constructor
and `strategy_.initialize(previous_day_close)`. -/
def startState (md : MarketData) : EngineState :=
  ⟨TwoCandelPatternStrategy.init.setup md.previous_day_close,
   RiskManager.init md.capital, Position.init, [], true⟩

/-- `TradingEngine::run`: the candle loop followed by the forced close of
any still-open position at the last candle of the data. -/
def runEngine (md : MarketData) : EngineState :=
  let st := runCandles (startState md) md.candles
  match md.candles.getLast? with
  | none => st
  | some last => if st.position.is_open = true then closePosition st last
                 else st

/-- Sum of the realized PnL recorded on the EXIT trades of a log. -/
def exitPnlSum : List Trade → ℚ
  | [] => 0
  | t :: ts => (if t.type = TradeType.EXIT then t.pnl else 0) + exitPnlSum ts

/-- Number of EXIT trades in a log. -/
def countExits : List Trade → ℕ
  | [] => 0
  | t :: ts => (if t.type = TradeType.EXIT then 1 else 0) + countExits ts

/-- A fully settled trade log: a sequence of SELL ENTRY/EXIT pairs in
which each EXIT carries the quantity of its ENTRY and a realized PnL of
(entry price − exit price) × quantity. -/
def pairedLog : List Trade → Prop
  | [] => True
  | [_] => False
  | e :: x :: rest =>
      e.type = TradeType.ENTRY ∧ e.side = TradeSide.SELL ∧ e.pnl = 0 ∧
      0 < e.quantity ∧
      x.type = TradeType.EXIT ∧ x.side = TradeSide.SELL ∧
      x.quantity = e.quantity ∧
      x.pnl = (e.price - x.price) * (x.quantity : ℚ) ∧
      pairedLog rest

/-- No two adjacent trades of a log are both ENTRY records. -/
def noConsecutiveEntries : List Trade → Prop
  | t1 :: t2 :: rest =>
      ¬(t1.type = TradeType.ENTRY ∧ t2.type = TradeType.ENTRY) ∧
      noConsecutiveEntries (t2 :: rest)
  | _ => True

/-- Invariant tying the engine's running capital and single position to
its trade log: the capital bookkeeping is exact, and the log is a paired
history, followed by the ENTRY of the currently open position if there is
one. -/
def EngineInv (cap0 : ℚ) (st : EngineState) : Prop :=
  st.risk.initial_capital = cap0 ∧
  st.risk.current_capital = cap0 + exitPnlSum st.trade_log ∧
  (st.position.is_open = true →
    st.position.side = TradeSide.SELL ∧ 0 < st.position.quantity ∧
    ∃ pre, pairedLog pre ∧
      st.trade_log = pre ++
        [⟨st.position.entry_timestamp, TradeSide.SELL, TradeType.ENTRY,
          st.position.entry_price, st.position.quantity, 0⟩]) ∧
  (st.position.is_open = false → pairedLog st.trade_log)

/-- Concrete two-candle market data whose first candle lies past the 15:00
cutoff: previous-day close 100, capital 100000, a qualifying gap-up candle
at 15:05 and a breakdown candle at 15:10. -/
def mdC3 : MarketData :=
  ⟨"X", 100, 100000,
   [⟨⟨15, 5⟩, 104, 105, 102, 101⟩,
    ⟨⟨15, 10⟩, 100, 100, 90, 95⟩]⟩

/-- Concrete three-candle session: a qualifying gap-up-and-hold first
candle, a breakdown second candle (entry), and a flat third candle, so the
position is still open when the data ends. -/
def mdC7x : MarketData :=
  ⟨"Y", 100, 1000,
   [⟨⟨9, 15⟩, 104, 105, 102, 101⟩,
    ⟨⟨9, 20⟩, 101, 101, 99, 100⟩,
    ⟨⟨9, 25⟩, 100, 101, 99, 100⟩]⟩

/-- Concrete engine state holding an open SELL position of 10 shares at
entry price 100 with capital 1000. -/
def stC3w : EngineState :=
  ⟨TwoCandelPatternStrategy.init, RiskManager.init 1000,
   ⟨true, TradeSide.SELL, 100, 10, ⟨9, 20⟩⟩, [], true⟩

/-- Concrete engine state whose daily trade count has reached the cap. -/
def stCapped : EngineState :=
  ⟨TwoCandelPatternStrategy.init, ⟨1000, 1000, 2, 20, 70⟩,
   Position.init, [], true⟩

/-- Concrete three-candle session whose run drives the running capital
negative: an arming candle, a breakdown candle opening SELL 10 @ 100 on
capital 1000, then a candle closing at 300, whose stop-loss exit books a
PnL of −2000 and leaves the capital at −1000 with one trade taken. -/
def mdC6 : MarketData :=
  ⟨"Z", 100, 1000,
   [⟨⟨9, 15⟩, 104, 105, 102, 101⟩,
    ⟨⟨9, 20⟩, 101, 101, 99, 100⟩,
    ⟨⟨9, 25⟩, 300, 300, 295, 300⟩]⟩

/-! Helper lemmas about the embedded components. -/

theorem EMACalculator.update_ready (e : EMACalculator) (x : ℚ) :
    (e.update x).ready = true := by
  unfold EMACalculator.update
  split_ifs with h <;> simp_all

theorem sell_ne_buy : (TradeSide.SELL = TradeSide.BUY) = False :=
  eq_false (by decide)

theorem exitPnlSum_append (l : List Trade) (t : Trade) :
    exitPnlSum (l ++ [t]) =
      exitPnlSum l + (if t.type = TradeType.EXIT then t.pnl else 0) := by
  induction l with
  | nil => simp [exitPnlSum]
  | cons a as ih => simp [exitPnlSum, ih]; ring

theorem countExits_append (l : List Trade) (t : Trade) :
    countExits (l ++ [t]) =
      countExits l + (if t.type = TradeType.EXIT then 1 else 0) := by
  induction l with
  | nil => simp [countExits]
  | cons a as ih => simp [countExits, ih]; omega

theorem closePosition_session (st : EngineState) (c : Candle) :
    (closePosition st c).session_active = st.session_active := by
  unfold closePosition; split_ifs <;> rfl

theorem countExits_executeSellOrder (st : EngineState) (c : Candle) :
    countExits (executeSellOrder st c).trade_log = countExits st.trade_log := by
  simp only [executeSellOrder]
  split_ifs <;> simp [countExits_append]

theorem countExits_closePosition (st : EngineState) (c : Candle) :
    countExits (closePosition st c).trade_log ≤ countExits st.trade_log + 1 := by
  simp only [closePosition]
  split_ifs <;> simp [countExits_append]

theorem countExits_checkExit (st : EngineState) (c : Candle) :
    countExits (checkExitConditions st c).trade_log ≤
      countExits st.trade_log + 1 := by
  simp only [checkExitConditions]
  split_ifs <;> first | omega | exact countExits_closePosition st c

theorem twoStepInduction {α : Type} {P : List α → Prop} (h0 : P [])
    (h1 : ∀ a, P [a]) (h2 : ∀ a b l, P l → P (a :: b :: l)) :
    ∀ l, P l
  | [] => h0
  | [a] => h1 a
  | a :: b :: l => h2 a b l (twoStepInduction h0 h1 h2 l)

theorem pairedLog_append_pair (e x : Trade)
    (h1 : e.type = TradeType.ENTRY) (h2 : e.side = TradeSide.SELL)
    (h3 : e.pnl = 0) (h4 : 0 < e.quantity) (h5 : x.type = TradeType.EXIT)
    (h6 : x.side = TradeSide.SELL) (h7 : x.quantity = e.quantity)
    (h8 : x.pnl = (e.price - x.price) * (x.quantity : ℚ)) :
    ∀ l, pairedLog l → pairedLog (l ++ [e, x]) := by
  refine twoStepInduction ?_ ?_ ?_
  · intro _
    simpa [pairedLog] using ⟨h1, h2, h3, h4, h5, h6, h7, h8⟩
  · intro a h; exact absurd h (by simp [pairedLog])
  · intro a b l ih h
    rw [List.cons_append, List.cons_append]
    exact ⟨h.1, h.2.1, h.2.2.1, h.2.2.2.1, h.2.2.2.2.1, h.2.2.2.2.2.1,
      h.2.2.2.2.2.2.1, h.2.2.2.2.2.2.2.1, ih h.2.2.2.2.2.2.2.2⟩

theorem pairedLog_noConsec :
    ∀ l, pairedLog l →
      noConsecutiveEntries l ∧ ∀ t, noConsecutiveEntries (l ++ [t]) := by
  refine twoStepInduction ?_ ?_ ?_
  · exact fun _ => ⟨trivial, fun t => by simp [noConsecutiveEntries]⟩
  · intro a h; exact absurd h (by simp [pairedLog])
  · intro a b l ih h
    obtain ⟨ih1, ih2⟩ := ih h.2.2.2.2.2.2.2.2
    have hb : b.type = TradeType.EXIT := h.2.2.2.2.1
    have hbl : ∀ l2 : List Trade, noConsecutiveEntries l2 →
        noConsecutiveEntries (b :: l2) := by
      intro l2 h2
      cases l2 with
      | nil => trivial
      | cons d l' => exact ⟨fun hc => by simp [hb] at hc, h2⟩
    constructor
    · exact ⟨fun hc => by simp [hb] at hc, hbl l ih1⟩
    · intro t
      rw [List.cons_append, List.cons_append]
      exact ⟨fun hc => by simp [hb] at hc, hbl (l ++ [t]) (ih2 t)⟩

theorem EngineInv_strategy (cap0 : ℚ) (st : EngineState)
    (sg : TwoCandelPatternStrategy) (h : EngineInv cap0 st) :
    EngineInv cap0 { st with strategy := sg } := h

theorem EngineInv_inactive (cap0 : ℚ) (st : EngineState)
    (h : EngineInv cap0 st) :
    EngineInv cap0 { st with session_active := false } := h

theorem closePosition_inv (cap0 : ℚ) (st : EngineState) (c : Candle)
    (h : EngineInv cap0 st) : EngineInv cap0 (closePosition st c) := by
  by_cases hop : st.position.is_open = true
  · obtain ⟨hside, hqty, pre, hpre, hlog⟩ := h.2.2.1 hop
    have hpnl : st.position.getUnrealizedPnL c.close =
        (st.position.entry_price - c.close) * (st.position.quantity : ℚ) := by
      simp [Position.getUnrealizedPnL, hop, hside]
    simp only [closePosition]
    rw [if_neg (by simp [hop])]
    refine ⟨h.1, ?_, ?_, ?_⟩
    · show st.risk.current_capital + st.position.getUnrealizedPnL c.close =
        cap0 + exitPnlSum (st.trade_log ++ [_])
      rw [exitPnlSum_append, h.2.1]
      simp
      ring
    · intro hop'
      exact absurd hop' (by simp [Position.close])
    · intro _
      show pairedLog (st.trade_log ++
        [⟨c.timestamp, st.position.side, TradeType.EXIT, c.close,
          st.position.quantity, st.position.getUnrealizedPnL c.close⟩])
      rw [hlog, List.append_assoc]
      have hx := pairedLog_append_pair
        ⟨st.position.entry_timestamp, TradeSide.SELL, TradeType.ENTRY,
          st.position.entry_price, st.position.quantity, 0⟩
        ⟨c.timestamp, st.position.side, TradeType.EXIT, c.close,
          st.position.quantity, st.position.getUnrealizedPnL c.close⟩
        rfl rfl rfl hqty rfl hside rfl (by simpa using hpnl) pre hpre
      simpa using hx
  · rw [Bool.not_eq_true] at hop
    have heq : closePosition st c = st := by simp [closePosition, hop]
    rw [heq]; exact h

theorem executeSellOrder_inv (cap0 : ℚ) (st : EngineState) (c : Candle)
    (h : EngineInv cap0 st) : EngineInv cap0 (executeSellOrder st c) := by
  by_cases hct : st.risk.canTrade = false
  · simp only [executeSellOrder]; rw [if_pos hct]; exact h
  · by_cases hop : st.position.is_open = true
    · simp only [executeSellOrder]
      rw [if_neg hct, if_pos hop]; exact h
    · rw [Bool.not_eq_true] at hop
      by_cases hq : st.risk.calculatePositionSize c.close ≤ 0
      · simp only [executeSellOrder]
        rw [if_neg hct, if_neg (by simp [hop]), if_pos hq]; exact h
      · simp only [executeSellOrder]
        rw [if_neg hct, if_neg (by simp [hop]), if_neg hq]
        refine ⟨h.1, ?_, ?_, ?_⟩
        · show st.risk.current_capital = cap0 + exitPnlSum (st.trade_log ++ [_])
          rw [exitPnlSum_append, h.2.1]
          simp
        · intro _
          refine ⟨rfl, lt_of_not_le hq, st.trade_log, h.2.2.2 hop, ?_⟩
          simp [Position.openAt]
        · intro hop'
          exact absurd hop' (by simp [Position.openAt])

theorem checkExitConditions_inv (cap0 : ℚ) (st : EngineState) (c : Candle)
    (h : EngineInv cap0 st) : EngineInv cap0 (checkExitConditions st c) := by
  simp only [checkExitConditions]
  split_ifs
  · exact h
  · exact closePosition_inv cap0 st c h
  · exact closePosition_inv cap0 st c h
  · exact EngineInv_inactive cap0 _ (closePosition_inv cap0 st c h)
  · exact h

theorem stepCandle_inv (cap0 : ℚ) (st : EngineState) (c : Candle)
    (h : EngineInv cap0 st) : EngineInv cap0 (stepCandle st c) := by
  simp only [stepCandle]
  split_ifs
  · exact executeSellOrder_inv cap0 _ c
      (checkExitConditions_inv cap0 _ c (EngineInv_strategy cap0 st _ h))
  · exact checkExitConditions_inv cap0 _ c (EngineInv_strategy cap0 st _ h)

theorem runCandles_inv (cap0 : ℚ) (st : EngineState) (cs : List Candle)
    (h : EngineInv cap0 st) : EngineInv cap0 (runCandles st cs) := by
  induction cs generalizing st with
  | nil => exact h
  | cons c cs ih =>
      simp only [runCandles]
      split_ifs
      · exact h
      · exact ih _ (stepCandle_inv cap0 st c h)

theorem startState_inv (md : MarketData) :
    EngineInv md.capital (startState md) := by
  refine ⟨rfl, ?_, ?_, ?_⟩
  · simp [startState, RiskManager.init, exitPnlSum]
  · intro hop; exact absurd hop (by simp [startState, Position.init])
  · intro _; simp [startState, pairedLog]

theorem runEngine_inv (md : MarketData) :
    EngineInv md.capital (runEngine md) := by
  have h := runCandles_inv md.capital (startState md) md.candles
    (startState_inv md)
  simp only [runEngine]
  cases hl : md.candles.getLast? with
  | none => exact h
  | some last =>
      split_ifs
      · exact closePosition_inv _ _ _ h
      · exact h

theorem closePosition_closes (st : EngineState) (c : Candle)
    (h : st.position.is_open = true) :
    (closePosition st c).position.is_open = false := by
  simp [closePosition, h, Position.close]

theorem runEngine_position_closed (md : MarketData) :
    (runEngine md).position.is_open = false := by
  simp only [runEngine]
  cases hl : md.candles.getLast? with
  | none =>
      have : md.candles = [] := List.getLast?_eq_none_iff.mp hl
      rw [this]
      simp [runCandles, startState, Position.init]
  | some last =>
      split_ifs with hop
      · exact closePosition_closes _ _ hop
      · rwa [Bool.not_eq_true] at hop

/-! Claim theorems. -/

/-- C1: the pattern detector arms (capturing the candle as anchor, with no
signal) exactly when, in the seeking state, the gap and strength
conditions hold; in the armed state it fires and re-seeks exactly when the
candle's low undercuts the anchor's low, and otherwise keeps the same
anchor with no signal.  An arming candle never fires in the same step. -/
theorem processCandle_state_machine_spec (s : TwoCandelPatternStrategy)
    (c : Candle) :
    (s.first_candle_valid = false →
      (s.processCandle c).2 = false ∧
      (((s.processCandle c).1.first_candle_valid = true ∧
          (s.processCandle c).1.first_candle = c) ↔
        (c.open_ ≥ s.previous_day_close * (1 + GAP_THRESHOLD) ∧
         c.low > (s.ema5.update c.close).ema))) ∧
    (s.first_candle_valid = true →
      (((s.processCandle c).2 = true ∧
          (s.processCandle c).1.first_candle_valid = false) ↔
        c.low < s.first_candle.low) ∧
      (¬c.low < s.first_candle.low →
        (s.processCandle c).2 = false ∧
        (s.processCandle c).1.first_candle_valid = true ∧
        (s.processCandle c).1.first_candle = s.first_candle)) := by
  constructor
  · intro h1
    unfold TwoCandelPatternStrategy.processCandle
    simp only [EMACalculator.update_ready, h1]
    by_cases hB : (c.open_ ≥ s.previous_day_close * (1 + GAP_THRESHOLD) ∧
        c.low > (s.ema5.update c.close).ema)
    · simp [hB]
    · simp only [hB]
      simp [h1, hB]
  · intro h1
    unfold TwoCandelPatternStrategy.processCandle
    simp only [EMACalculator.update_ready, h1]
    by_cases hC : c.low < s.first_candle.low
    · simp [hC]
    · simp [hC, h1]

theorem processCandle_state_machine_spec_witness :
    ((TwoCandelPatternStrategy.init.setup 100).processCandle
        ⟨⟨9, 15⟩, 104, 105, 102, 101⟩).2 = false ∧
    (((TwoCandelPatternStrategy.init.setup 100).processCandle
        ⟨⟨9, 15⟩, 104, 105, 102, 101⟩).1.first_candle_valid = true ∧
      ((TwoCandelPatternStrategy.init.setup 100).processCandle
        ⟨⟨9, 15⟩, 104, 105, 102, 101⟩).1.first_candle =
        ⟨⟨9, 15⟩, 104, 105, 102, 101⟩) := by
  have h := (processCandle_state_machine_spec
    (TwoCandelPatternStrategy.init.setup 100)
    ⟨⟨9, 15⟩, 104, 105, 102, 101⟩).1 rfl
  refine ⟨h.1, h.2.mpr ?_⟩
  norm_num [TwoCandelPatternStrategy.init, TwoCandelPatternStrategy.setup,
    EMACalculator.init, EMACalculator.update, EMACalculator.reset,
    GAP_THRESHOLD]

/-- C2: per candle the orchestrator feeds the strategy, then (with an open
position) runs the exits with priority stop-loss, take-profit, time
cutoff — the first match closes at the candle's close, appends one EXIT
trade and books the PnL into capital, and only the time branch ends the
session — and only afterwards is an entry signal acted on, on the
post-exit state; at most one exit trade is appended per candle. -/
theorem stepCandle_exit_before_entry_spec (st : EngineState) (c : Candle) :
    (st.position.is_open = true →
      (st.risk.isStopLossHit (st.position.getUnrealizedPnL c.close) = true →
        checkExitConditions st c = closePosition st c) ∧
      (st.risk.isStopLossHit (st.position.getUnrealizedPnL c.close) = false →
        st.risk.isTakeProfitHit (st.position.getUnrealizedPnL c.close) = true →
        checkExitConditions st c = closePosition st c) ∧
      (st.risk.isStopLossHit (st.position.getUnrealizedPnL c.close) = false →
        st.risk.isTakeProfitHit (st.position.getUnrealizedPnL c.close) = false →
        isPastMarketClose c.timestamp = true →
        checkExitConditions st c =
          { closePosition st c with session_active := false }) ∧
      (st.risk.isStopLossHit (st.position.getUnrealizedPnL c.close) = false →
        st.risk.isTakeProfitHit (st.position.getUnrealizedPnL c.close) = false →
        isPastMarketClose c.timestamp = false →
        checkExitConditions st c = st)) ∧
    (st.position.is_open = false → checkExitConditions st c = st) ∧
    (st.position.is_open = true →
      (closePosition st c).position.is_open = false ∧
      (closePosition st c).trade_log = st.trade_log ++
        [⟨c.timestamp, st.position.side, TradeType.EXIT, c.close,
          st.position.quantity, st.position.getUnrealizedPnL c.close⟩] ∧
      (closePosition st c).risk.current_capital =
        st.risk.current_capital + st.position.getUnrealizedPnL c.close) ∧
    countExits (stepCandle st c).trade_log ≤ countExits st.trade_log + 1 ∧
    (stepCandle st c =
        checkExitConditions
          { st with strategy := (st.strategy.processCandle c).1 } c ∨
      stepCandle st c =
        executeSellOrder
          (checkExitConditions
            { st with strategy := (st.strategy.processCandle c).1 } c) c) := by
  refine ⟨?_, ?_, ?_, ?_, ?_⟩
  · intro hop
    refine ⟨?_, ?_, ?_, ?_⟩
    · intro hSL; simp [checkExitConditions, hop, hSL]
    · intro hSL hTP; simp [checkExitConditions, hop, hSL, hTP]
    · intro hSL hTP hpast; simp [checkExitConditions, hop, hSL, hTP, hpast]
    · intro hSL hTP hpast; simp [checkExitConditions, hop, hSL, hTP, hpast]
  · intro hop; simp [checkExitConditions, hop]
  · intro hop
    refine ⟨?_, ?_, ?_⟩ <;>
      simp [closePosition, hop, Position.close, RiskManager.updateCapital]
  · have h1 : countExits (stepCandle st c).trade_log ≤
        countExits (checkExitConditions
          { st with strategy := (st.strategy.processCandle c).1 } c).trade_log := by
      simp only [stepCandle]
      split_ifs
      · rw [countExits_executeSellOrder]
      · exact le_refl _
    exact le_trans h1 (countExits_checkExit _ c)
  · simp only [stepCandle]
    split_ifs
    · right; rfl
    · left; rfl

theorem stepCandle_exit_before_entry_spec_witness :
    checkExitConditions (startState
      ⟨"W", 100, 1000, []⟩) ⟨⟨9, 15⟩, 104, 105, 102, 101⟩ =
      startState ⟨"W", 100, 1000, []⟩ :=
  (stepCandle_exit_before_entry_spec (startState ⟨"W", 100, 1000, []⟩)
    ⟨⟨9, 15⟩, 104, 105, 102, 101⟩).2.1 rfl

/-- C3 counterexample: a candle at 15:05 is at/past the 15:00 cutoff, yet
with no open position the session stays ACTIVE; the next candle (15:10) is
still processed and even executes an entry trade, so the claimed
unconditional transition to ENDED at the cutoff is false. -/
theorem marketClose_not_ended_counterexample :
    parseTimeToMinutes MARKET_CLOSE_TIME ≤
      parseTimeToMinutes (⟨15, 5⟩ : TimeHM) ∧
    (stepCandle (startState mdC3)
      ⟨⟨15, 5⟩, 104, 105, 102, 101⟩).session_active = true ∧
    (runEngine mdC3).trade_log =
      [⟨⟨15, 10⟩, TradeSide.SELL, TradeType.ENTRY, 95, 1052, 0⟩,
       ⟨⟨15, 10⟩, TradeSide.SELL, TradeType.EXIT, 95, 1052, 0⟩] := by
  refine ⟨by norm_num [parseTimeToMinutes, MARKET_CLOSE_TIME], ?_, ?_⟩ <;>
    norm_num [runEngine, mdC3, startState, runCandles, stepCandle,
      checkExitConditions, executeSellOrder, closePosition,
      TwoCandelPatternStrategy.init, TwoCandelPatternStrategy.setup,
      TwoCandelPatternStrategy.processCandle, EMACalculator.init,
      EMACalculator.update, EMACalculator.reset, GAP_THRESHOLD,
      RiskManager.init, RiskManager.canTrade, RiskManager.recordTrade,
      RiskManager.calculatePositionSize, RiskManager.isStopLossHit,
      RiskManager.isTakeProfitHit, RiskManager.updateCapital,
      STOP_LOSS_PCT, TAKE_PROFIT_PCT, MAX_DAILY_TRADES, truncQ,
      Position.init, Position.openAt, Position.close,
      Position.getUnrealizedPnL, isPastMarketClose, parseTimeToMinutes,
      MARKET_CLOSE_TIME]

/-- C3 amended: once the session is ENDED no further candle is processed;
and a candle at/past 15:00 ends the session exactly when a position is
open on it and neither the stop loss nor the take profit fires first — a
cutoff candle with no open position leaves the session ACTIVE. -/
theorem session_end_amended_spec (st : EngineState) (c : Candle)
    (cs : List Candle) :
    (st.session_active = false → runCandles st cs = st) ∧
    ((checkExitConditions st c).session_active = false ↔
      (st.session_active = false ∨
        (st.position.is_open = true ∧
         st.risk.isStopLossHit (st.position.getUnrealizedPnL c.close) = false ∧
         st.risk.isTakeProfitHit (st.position.getUnrealizedPnL c.close) = false ∧
         parseTimeToMinutes MARKET_CLOSE_TIME ≤
           parseTimeToMinutes c.timestamp))) := by
  constructor
  · intro h; cases cs <;> simp [runCandles, h]
  · by_cases hop : st.position.is_open = true
    · by_cases hSL : st.risk.isStopLossHit
          (st.position.getUnrealizedPnL c.close) = true
      · simp [checkExitConditions, hop, hSL, closePosition_session]
      · rw [Bool.not_eq_true] at hSL
        by_cases hTP : st.risk.isTakeProfitHit
            (st.position.getUnrealizedPnL c.close) = true
        · simp [checkExitConditions, hop, hSL, hTP, closePosition_session]
        · rw [Bool.not_eq_true] at hTP
          by_cases hpast : parseTimeToMinutes MARKET_CLOSE_TIME ≤
              parseTimeToMinutes c.timestamp
          · simp [checkExitConditions, hop, hSL, hTP, isPastMarketClose, hpast]
          · simp [checkExitConditions, hop, hSL, hTP, isPastMarketClose, hpast]
    · rw [Bool.not_eq_true] at hop
      simp [checkExitConditions, hop]

theorem session_end_amended_spec_witness :
    (checkExitConditions stC3w ⟨⟨15, 0⟩, 100, 100, 100, 100⟩).session_active
        = false ∧
    runCandles ⟨TwoCandelPatternStrategy.init, RiskManager.init 1000,
      Position.init, [], false⟩ [⟨⟨9, 30⟩, 1, 1, 1, 1⟩] =
      ⟨TwoCandelPatternStrategy.init, RiskManager.init 1000,
        Position.init, [], false⟩ := by
  constructor
  · refine (session_end_amended_spec stC3w
      ⟨⟨15, 0⟩, 100, 100, 100, 100⟩ []).2.mpr (Or.inr ⟨rfl, ?_, ?_, ?_⟩)
    · norm_num [stC3w, RiskManager.isStopLossHit, RiskManager.init,
        STOP_LOSS_PCT, Position.getUnrealizedPnL]
    · norm_num [stC3w, RiskManager.isTakeProfitHit, RiskManager.init,
        TAKE_PROFIT_PCT, Position.getUnrealizedPnL]
    · norm_num [parseTimeToMinutes, MARKET_CLOSE_TIME]
  · exact (session_end_amended_spec ⟨TwoCandelPatternStrategy.init,
      RiskManager.init 1000, Position.init, [], false⟩
      ⟨⟨9, 30⟩, 1, 1, 1, 1⟩ [⟨⟨9, 30⟩, 1, 1, 1, 1⟩]).1 rfl

/-- C4: the EMA calculator of period p fixes α = 2/(p+1) at construction;
the first update seeds the value with the price, every later update
applies exponential smoothing, and for period 3 the prices [10, 12, 11]
produce the EMA values [10, 11, 11]. -/
theorem ema_update_spec (p : ℕ) (x : ℚ) (e : EMACalculator) :
    (EMACalculator.init p).multiplier = 2 / ((p : ℚ) + 1) ∧
    (e.ready = false → (e.update x).ema = x ∧ (e.update x).ready = true) ∧
    (e.ready = true →
      (e.update x).ema = x * e.multiplier + e.ema * (1 - e.multiplier)) ∧
    ((EMACalculator.init 3).update 10).ema = 10 ∧
    (((EMACalculator.init 3).update 10).update 12).ema = 11 ∧
    ((((EMACalculator.init 3).update 10).update 12).update 11).ema = 11 := by
  refine ⟨rfl, ?_, ?_, ?_, ?_, ?_⟩
  · intro h; simp [EMACalculator.update, h]
  · intro h; simp [EMACalculator.update, h]
  · norm_num [EMACalculator.init, EMACalculator.update]
  · norm_num [EMACalculator.init, EMACalculator.update]
  · norm_num [EMACalculator.init, EMACalculator.update]

theorem ema_update_spec_witness :
    ((EMACalculator.init 5).update 7).ema = 7 ∧
    (((EMACalculator.init 5).update 7).update 13).ema = 9 :=
  ⟨((ema_update_spec 5 7 (EMACalculator.init 5)).2.1 rfl).1, by
    have h2 := (ema_update_spec 5 13 ((EMACalculator.init 5).update 7)).2.2.1
      (((ema_update_spec 5 7 (EMACalculator.init 5)).2.1 rfl).2)
    rw [h2, ((ema_update_spec 5 7 (EMACalculator.init 5)).2.1 rfl).1]
    norm_num [EMACalculator.init, EMACalculator.update]⟩

/-- C5: the risk manager fixes stop-loss = 0.02·K and take-profit = 0.07·K
at construction, neither is recomputed when capital or the trade count
changes, and the boundary tests are inclusive: for K = 100000,
isStopLossHit(−2000) is true and isStopLossHit(−1999.99) is false. -/
theorem risk_thresholds_spec (K pnl : ℚ) (r : RiskManager) (q : ℚ) :
    (RiskManager.init K).stop_loss_amount = 2 / 100 * K ∧
    (RiskManager.init K).take_profit_amount = 7 / 100 * K ∧
    (r.updateCapital q).stop_loss_amount = r.stop_loss_amount ∧
    (r.updateCapital q).take_profit_amount = r.take_profit_amount ∧
    (r.recordTrade).stop_loss_amount = r.stop_loss_amount ∧
    (r.recordTrade).take_profit_amount = r.take_profit_amount ∧
    ((RiskManager.init K).isStopLossHit pnl = true ↔ pnl ≤ -(2 / 100 * K)) ∧
    ((RiskManager.init K).isTakeProfitHit pnl = true ↔ pnl ≥ 7 / 100 * K) ∧
    (RiskManager.init 100000).isStopLossHit (-2000) = true ∧
    (RiskManager.init 100000).isStopLossHit (-1999.99) = false := by
  refine ⟨?_, ?_, rfl, rfl, rfl, rfl, ?_, ?_, ?_, ?_⟩
  · simp [RiskManager.init, STOP_LOSS_PCT]; ring
  · simp [RiskManager.init, TAKE_PROFIT_PCT]; ring
  · simp [RiskManager.isStopLossHit, RiskManager.init, STOP_LOSS_PCT,
      mul_comm]
  · simp [RiskManager.isTakeProfitHit, RiskManager.init, TAKE_PROFIT_PCT,
      mul_comm]
  · norm_num [RiskManager.isStopLossHit, RiskManager.init, STOP_LOSS_PCT]
  · norm_num [RiskManager.isStopLossHit, RiskManager.init, STOP_LOSS_PCT]

/-- C6 counterexample: a run on mdC6 reaches running capital −1000 with
only one trade taken, so the engine can still size a position there; at
that reachable state the C++ `static_cast<int>` truncates toward zero:
at price 95 it returns −10 while floor gives −11, the result is negative,
and sizing is not monotonically non-increasing (price 50 gives −20, price
100 gives −10), refuting the claim as stated. -/
theorem calculatePositionSize_negcap_counterexample :
    (runEngine mdC6).risk.current_capital = -1000 ∧
    (runEngine mdC6).risk.trades_today = 1 ∧
    (runEngine mdC6).risk.calculatePositionSize 95 = -10 ∧
    (⌊(runEngine mdC6).risk.current_capital / 95⌋ : ℤ) = -11 ∧
    (runEngine mdC6).risk.calculatePositionSize 95 < 0 ∧
    (runEngine mdC6).risk.calculatePositionSize 50 <
      (runEngine mdC6).risk.calculatePositionSize 100 := by
  norm_num [sell_ne_buy, runEngine, mdC6, startState, runCandles, stepCandle,
    checkExitConditions, executeSellOrder, closePosition,
    TwoCandelPatternStrategy.init, TwoCandelPatternStrategy.setup,
    TwoCandelPatternStrategy.processCandle, EMACalculator.init,
    EMACalculator.update, EMACalculator.reset, GAP_THRESHOLD,
    RiskManager.init, RiskManager.canTrade, RiskManager.recordTrade,
    RiskManager.calculatePositionSize, RiskManager.isStopLossHit,
    RiskManager.isTakeProfitHit, RiskManager.updateCapital,
    STOP_LOSS_PCT, TAKE_PROFIT_PCT, MAX_DAILY_TRADES, truncQ,
    Position.init, Position.openAt, Position.close,
    Position.getUnrealizedPnL, isPastMarketClose, parseTimeToMinutes,
    MARKET_CLOSE_TIME]

/-- C6 amended: position sizing is floor(capital / price) for positive
prices and non-negative running capital, 0 for non-positive prices,
monotonically non-increasing in the price over positive prices, and never
negative; with negative running capital the cast truncates toward zero
instead of flooring and these guarantees fail. -/
theorem calculatePositionSize_spec (r : RiskManager) (e e1 e2 : ℚ)
    (hc : 0 ≤ r.current_capital) :
    (0 < e → r.calculatePositionSize e = ⌊r.current_capital / e⌋) ∧
    (e ≤ 0 → r.calculatePositionSize e = 0) ∧
    (0 < e1 → e1 ≤ e2 →
      r.calculatePositionSize e2 ≤ r.calculatePositionSize e1) ∧
    0 ≤ r.calculatePositionSize e := by
  refine ⟨?_, ?_, ?_, ?_⟩
  · intro he
    unfold RiskManager.calculatePositionSize truncQ
    rw [if_neg (not_le.mpr he), if_neg (not_lt.mpr (div_nonneg hc he.le))]
  · intro he; simp [RiskManager.calculatePositionSize, he]
  · intro h1 h2
    have h2' : 0 < e2 := lt_of_lt_of_le h1 h2
    unfold RiskManager.calculatePositionSize truncQ
    rw [if_neg (not_le.mpr h1), if_neg (not_le.mpr h2'),
      if_neg (not_lt.mpr (div_nonneg hc h1.le)),
      if_neg (not_lt.mpr (div_nonneg hc h2'.le))]
    refine Int.floor_le_floor ?_
    rw [div_le_div_iff₀ h2' h1]
    exact mul_le_mul_of_nonneg_left h2 hc
  · by_cases he : e ≤ 0
    · simp [RiskManager.calculatePositionSize, he]
    · have he' : 0 < e := not_le.mp he
      unfold RiskManager.calculatePositionSize truncQ
      rw [if_neg he, if_neg (not_lt.mpr (div_nonneg hc he'.le))]
      exact Int.floor_nonneg.mpr (div_nonneg hc he'.le)

theorem calculatePositionSize_spec_witness :
    (RiskManager.init 1000).calculatePositionSize 95 = 10 ∧
    (RiskManager.init 1000).calculatePositionSize (-3) = 0 ∧
    (RiskManager.init 1000).calculatePositionSize 100 ≤
      (RiskManager.init 1000).calculatePositionSize 95 ∧
    0 ≤ (RiskManager.init 1000).calculatePositionSize 95 := by
  have h := calculatePositionSize_spec (RiskManager.init 1000) 95 95 100
    (by norm_num [RiskManager.init])
  have h' := calculatePositionSize_spec (RiskManager.init 1000) (-3) 95 100
    (by norm_num [RiskManager.init])
  refine ⟨?_, h'.2.1 (by norm_num), h.2.2.1 (by norm_num) (by norm_num),
    h.2.2.2⟩
  rw [h.1 (by norm_num)]; norm_num [RiskManager.init]

/-- C7: after a run, no position remains open (any open position has been
force-closed at the last candle, appending exactly one more EXIT trade at
that candle's close); the trade log is a sequence of SELL ENTRY/EXIT pairs
whose EXIT PnL is (entry price − exit price) × quantity; and the final
capital is the initial capital plus the sum of all realized PnLs. -/
theorem run_final_settlement_spec (md : MarketData) :
    (runEngine md).position.is_open = false ∧
    pairedLog (runEngine md).trade_log ∧
    (runEngine md).risk.initial_capital = md.capital ∧
    (runEngine md).risk.current_capital =
      md.capital + exitPnlSum (runEngine md).trade_log ∧
    (∀ last, md.candles.getLast? = some last →
      (runCandles (startState md) md.candles).position.is_open = true →
      (runEngine md).trade_log =
        (runCandles (startState md) md.candles).trade_log ++
          [⟨last.timestamp,
            (runCandles (startState md) md.candles).position.side,
            TradeType.EXIT, last.close,
            (runCandles (startState md) md.candles).position.quantity,
            (runCandles (startState md) md.candles).position.getUnrealizedPnL
              last.close⟩]) := by
  have hinv := runEngine_inv md
  have hcl := runEngine_position_closed md
  refine ⟨hcl, hinv.2.2.2 hcl, hinv.1, hinv.2.1, ?_⟩
  intro last hl hop
  simp only [runEngine, hl]
  rw [if_pos hop]
  simp [closePosition, hop]

theorem run_final_settlement_spec_witness :
    (runEngine mdC7x).trade_log =
      (runCandles (startState mdC7x) mdC7x.candles).trade_log ++
        [⟨⟨9, 25⟩,
          (runCandles (startState mdC7x) mdC7x.candles).position.side,
          TradeType.EXIT, 100,
          (runCandles (startState mdC7x) mdC7x.candles).position.quantity,
          (runCandles (startState mdC7x)
            mdC7x.candles).position.getUnrealizedPnL 100⟩] :=
  (run_final_settlement_spec mdC7x).2.2.2.2 ⟨⟨9, 25⟩, 100, 101, 99, 100⟩ rfl
    (by norm_num [runCandles, mdC7x, startState, stepCandle,
      checkExitConditions, executeSellOrder, closePosition,
      TwoCandelPatternStrategy.init, TwoCandelPatternStrategy.setup,
      TwoCandelPatternStrategy.processCandle, EMACalculator.init,
      EMACalculator.update, EMACalculator.reset, GAP_THRESHOLD,
      RiskManager.init, RiskManager.canTrade, RiskManager.recordTrade,
      RiskManager.calculatePositionSize, RiskManager.isStopLossHit,
      RiskManager.isTakeProfitHit, RiskManager.updateCapital,
      STOP_LOSS_PCT, TAKE_PROFIT_PCT, MAX_DAILY_TRADES, truncQ,
      Position.init, Position.openAt, Position.close,
      Position.getUnrealizedPnL, isPastMarketClose, parseTimeToMinutes,
      MARKET_CLOSE_TIME])

/-- C8: an entry signal is dropped when a position is already open or the
daily cap of 2 trades is reached; an EXIT can only be appended while a
position is open (closing with no open position is a no-op); in every
reachable state the trade log never holds two consecutive ENTRY records,
and an open position's quantity is strictly positive.  At most one
position exists at any time by construction: the engine state carries a
single Position. -/
theorem session_trade_log_invariants (md : MarketData) (cs : List Candle) :
    (∀ st c, st.position.is_open = true → executeSellOrder st c = st) ∧
    (∀ st c, MAX_DAILY_TRADES ≤ st.risk.trades_today →
      executeSellOrder st c = st) ∧
    (∀ st c, st.position.is_open = false → closePosition st c = st) ∧
    noConsecutiveEntries (runCandles (startState md) cs).trade_log ∧
    ((runCandles (startState md) cs).position.is_open = true →
      0 < (runCandles (startState md) cs).position.quantity) := by
  refine ⟨?_, ?_, ?_, ?_, ?_⟩
  · intro st c hop
    simp [executeSellOrder, hop]
  · intro st c hcap
    have hct : st.risk.canTrade = false := by
      simp only [RiskManager.canTrade, MAX_DAILY_TRADES] at *
      simp only [decide_eq_false_iff_not, not_lt]
      exact hcap
    simp [executeSellOrder, hct]
  · intro st c hop
    simp [closePosition, hop]
  · have hinv := runCandles_inv md.capital (startState md) cs
      (startState_inv md)
    by_cases hop : (runCandles (startState md) cs).position.is_open = true
    · obtain ⟨-, -, pre, hpre, hlog⟩ := hinv.2.2.1 hop
      rw [hlog]
      exact (pairedLog_noConsec pre hpre).2 _
    · rw [Bool.not_eq_true] at hop
      exact (pairedLog_noConsec _ (hinv.2.2.2 hop)).1
  · intro hop
    exact ((runCandles_inv md.capital (startState md) cs
      (startState_inv md)).2.2.1 hop).2.1

theorem session_trade_log_invariants_witness :
    executeSellOrder stC3w ⟨⟨9, 30⟩, 1, 1, 1, 1⟩ = stC3w ∧
    executeSellOrder stCapped ⟨⟨9, 30⟩, 1, 1, 1, 1⟩ = stCapped ∧
    closePosition (startState mdC7x) ⟨⟨9, 30⟩, 1, 1, 1, 1⟩ =
      startState mdC7x := by
  have h := session_trade_log_invariants mdC7x []
  exact ⟨h.1 stC3w _ rfl,
    h.2.1 stCapped _ (by norm_num [MAX_DAILY_TRADES, stCapped]),
    h.2.2.1 (startState mdC7x) _ rfl⟩

/-- C9: the simulation is a pure function of the market data: two runs on
identical input, each from a freshly constructed initial state (as built
inside runEngine), produce identical trade logs and identical summary
figures (final capital, initial capital, trade count). -/
theorem run_deterministic (md1 md2 : MarketData) (h : md1 = md2) :
    (runEngine md1).trade_log = (runEngine md2).trade_log ∧
    (runEngine md1).risk.current_capital =
      (runEngine md2).risk.current_capital ∧
    (runEngine md1).risk.initial_capital =
      (runEngine md2).risk.initial_capital ∧
    (runEngine md1).risk.trades_today =
      (runEngine md2).risk.trades_today := by
  subst h
  exact ⟨rfl, rfl, rfl, rfl⟩

theorem run_deterministic_witness :
    (runEngine mdC7x).trade_log = (runEngine mdC7x).trade_log ∧
    (runEngine mdC7x).risk.current_capital =
      (runEngine mdC7x).risk.current_capital ∧
    (runEngine mdC7x).risk.initial_capital =
      (runEngine mdC7x).risk.initial_capital ∧
    (runEngine mdC7x).risk.trades_today =
      (runEngine mdC7x).risk.trades_today :=
  run_deterministic mdC7x mdC7x rfl

/-- C10: both EMAs are updated before the readiness check in processCandle
and a single update already makes an EMA ready, so the not-ready
early-return guard is false on every candle; in particular the very first
candle of a fresh session can itself arm the detector. -/
theorem ema_gate_unreachable_spec (e : EMACalculator) (x : ℚ)
    (s : TwoCandelPatternStrategy) (c : Candle) :
    (e.update x).ready = true ∧
    ((s.processCandle c).1).ema5.ready = true ∧
    (((s.ema5.update c.close).ready = false) = False) ∧
    ((TwoCandelPatternStrategy.init.setup 100).processCandle
        ⟨⟨9, 15⟩, 104, 105, 102, 101⟩).1.first_candle_valid = true := by
  refine ⟨EMACalculator.update_ready e x, ?_, ?_, ?_⟩
  · unfold TwoCandelPatternStrategy.processCandle
    simp only [EMACalculator.update_ready]
    split_ifs <;> simp [EMACalculator.update_ready]
  · simp [EMACalculator.update_ready]
  · norm_num [TwoCandelPatternStrategy.init, TwoCandelPatternStrategy.setup,
      TwoCandelPatternStrategy.processCandle, EMACalculator.init,
      EMACalculator.update, EMACalculator.reset, GAP_THRESHOLD]

end MeanEdge
